import Mathlib

/-!
Verification of the casics/downloader archive-acquisition pipeline.

Shallow embedding of `src/downloader/downloader.py` (and, where noted, the
older revision `src/downloader.py`).  Filesystem and network effects are
modelled by explicit oracles passed as arguments; the result-consumption
loop of `get_sources` is a fold over the per-item outcome sequence.
-/

namespace Downloader

/-! ### POSIX path helpers (`os.path.join`, `dirname`, `basename`) -/

/-- First character is a slash (Python `b.startswith('/')`). -/
def startsWithSlash (s : String) : Bool :=
  match s.data with
  | [] => false
  | c :: _ => c == '/'

/-- Last character is a slash (Python `a.endswith('/')`). -/
def endsWithSlash (s : String) : Bool :=
  match s.data.getLast? with
  | some c => c == '/'
  | none => false

/-- Python `os.path.join(a, b)` (posixpath, two arguments). -/
def pathJoin (a b : String) : String :=
  if startsWithSlash b then b
  else if a = "" ∨ endsWithSlash a = true then a ++ b
  else a ++ "/" ++ b

/-- `p.rfind('/') + 1` on the character list (0 when there is no slash). -/
def lastSlashPos : List Char → Nat
  | [] => 0
  | c :: rest =>
    let r := lastSlashPos rest
    if r = 0 then (if c == '/' then 1 else 0) else r + 1

/-- Python `head.rstrip('/')`. -/
def rstripSlash (cs : List Char) : List Char :=
  (cs.reverse.dropWhile (fun c => c == '/')).reverse

/-- Python `os.path.dirname(p)` (posixpath). -/
def dirname (p : String) : String :=
  let head := p.data.take (lastSlashPos p.data)
  if head ≠ [] ∧ head.all (fun c => c == '/') = false then String.mk (rstripSlash head)
  else String.mk head

/-- Python `os.path.basename(p)` (posixpath). -/
def basename (p : String) : String :=
  String.mk (p.data.drop (lastSlashPos p.data))

/-! ### Decimal rendering (`'{:08}'.format`) and `generate_path` -/

/-- The character for one decimal digit. -/
def digitChar (n : Nat) : Char := Char.ofNat (48 + n)

/-- Digit-producing loop with explicit fuel (the scheme of core's
`Nat.toDigits`); `n + 1` units of fuel always suffice since a natural has
at most `n + 1` decimal digits. -/
def toDecimalCore : Nat → Nat → List Char
  | 0, _ => []
  | fuel + 1, n =>
    if n < 10 then [digitChar n]
    else toDecimalCore fuel (n / 10) ++ [digitChar (n % 10)]

/-- Decimal digits of `n`, most significant first (the rendering used by
Python `'{:08}'.format(n)` before padding). -/
def toDecimal (n : Nat) : List Char := toDecimalCore (n + 1) n

/-- Python `'{:08}'.format(n)`: the decimal rendering of `n`, left-padded
with zeros to width 8. -/
def format08 (n : Nat) : String :=
  let d := toDecimal n
  String.mk (List.replicate (8 - d.length) '0' ++ d)

/-- `generate_path(root, entry)` from `src/downloader.py` lines 313-326:
`s = '{:08}'.format(entry.id)` followed by
`os.path.join(root, s[0:2], s[2:4], s[4:6], s[6:8])`. -/
def generate_path (root : String) (id : Nat) : String :=
  let s := (format08 id).data
  pathJoin (pathJoin (pathJoin (pathJoin root (String.mk (s.take 2)))
      (String.mk ((s.drop 2).take 2))) (String.mk ((s.drop 4).take 2)))
    (String.mk ((s.drop 6).take 2))

/-! ### The scheduler loop of `get_sources`
(src/downloader/downloader.py lines 198-223) -/

/-- `_MAX_FAILURES = 10` — "Total number of failures allowed before we pause." -/
def MAX_FAILURES : Nat := 10

/-- `_MAX_RETRIES = 3` — "Number of times we pause & retry after hitting the
failure limit." -/
def MAX_RETRIES : Nat := 3

/-- The scheduler's accounting state: the local variables of `get_sources`,
plus a log of the durations passed to `sleep` and a flag recording that the
`break` statement ran. -/
structure SchedState where
  count : Nat
  failures : Nat
  retries : Nat
  sleeps : List Nat
  stopped : Bool
deriving DecidableEq, Repr

/-- One iteration of the result-consumption loop in `get_sources`
(src/downloader/downloader.py lines 203-223): `failures += int(not success)`;
if `failures >= _MAX_FAILURES` then either pause (`retries += 1`,
`sleep(300 * retries)`, `failures = 0`) when `retries <= _MAX_RETRIES`, or
`break`; finally `count += 1` unless the loop broke. -/
def schedStep (s : SchedState) (success : Bool) : SchedState :=
  let failures := s.failures + (if success then 0 else 1)
  if failures ≥ MAX_FAILURES then
    if s.retries ≤ MAX_RETRIES then
      { count := s.count + 1, failures := 0, retries := s.retries + 1,
        sleeps := s.sleeps ++ [300 * (s.retries + 1)], stopped := false }
    else
      { s with failures := failures, stopped := true }
  else
    { s with count := s.count + 1, failures := failures }

/-- Run the consumption loop over a list of outcomes, honouring `break`. -/
def schedRun : SchedState → List Bool → SchedState
  | s, [] => s
  | s, b :: rest =>
    let s' := schedStep s b
    if s'.stopped then s' else schedRun s' rest

/-- `count = 0; failures = 0; retries = 0` at the top of the loop. -/
def initSched : SchedState := ⟨0, 0, 0, [], false⟩

/-- The accounting loop of `get_sources` applied to a sequence of per-item
outcomes (the values produced by `do_download`, in submission order). -/
def processOutcomes (outcomes : List Bool) : SchedState :=
  schedRun initSched outcomes

/-! ### The per-item unit of work: `download` and `do_download`
(src/downloader/downloader.py lines 180-302) -/

/-- A repository record as queried from the metadata store:
`fields = dict.fromkeys(['owner', 'name', 'default_branch'], 1)` plus `_id`. -/
structure Entry where
  id : Nat
  owner : String
  name : String
  default_branch : String
deriving DecidableEq, Repr

/-- A download exception as inspected by `download`: `hasattr(ex, 'code')`
and `ex.code` are modelled by an optional status code. -/
structure DlErr where
  code : Option Nat
deriving DecidableEq, Repr

/-- Observable network actions of one `download` call: a `wget.download` of
a URL, a run of the scrape strategy (`get_archive_url_by_scraping`, which
fetches the repository home page), and a run of the API strategy
(`get_archive_url_by_api`, which calls the hosting API). -/
inductive Trace where
  | wget (url : String)
  | scrape
  | api
deriving DecidableEq, Repr

/-- The status lines `download` and `do_download` can report. -/
inductive StatusMsg where
  | alreadyIn
  | noZipForBranch
  | failedDownload
  | cantFindUrl
  | leftZipped
  | downloaded
  | skipUnknown
deriving DecidableEq, Repr

/-- The environment one `download` call runs against: whether
`os.path.exists(localpath) and os.listdir(localpath)` holds, the outcome of
`wget.download` per URL, the results of the two fallback strategies, and
the outcome of `unzip_archive` per downloaded file. -/
structure Env where
  alreadyPresent : Bool
  wget : String → Except DlErr String
  scrapeUrl : Option String
  apiUrl : Option String
  unzip : String → Option String

/-- The default-branch archive URL tried first:
`"https://github.com/{}/{}/archive/{}.zip"`. -/
def defaultUrl (e : Entry) : String :=
  "https://github.com/" ++ e.owner ++ "/" ++ e.name ++ "/archive/"
    ++ e.default_branch ++ ".zip"

/-- The result of one `download` call: its return value, its network
actions in order, and its status reports in order. -/
structure DlResult where
  success : Bool
  trace : List Trace
  msgs : List StatusMsg
deriving DecidableEq, Repr

/-- The tail of `download` after a successful `wget`: `unzip_archive` then
`os.rename` to the final path (lines 289-302); an extraction exception
reports "left zipped" and returns False. -/
def finishDownload (env : Env) (outfile : String) (tr : List Trace)
    (ms : List StatusMsg) : DlResult :=
  match env.unzip outfile with
  | some _ => { success := true, trace := tr, msgs := ms ++ [StatusMsg.downloaded] }
  | none => { success := false, trace := tr, msgs := ms ++ [StatusMsg.leftZipped] }

/-- `download(entry, ...)` from src/downloader/downloader.py lines 228-302:
skip when the destination is already populated; otherwise `wget` the
default-branch URL; on an exception whose `code` is 404 try the scrape
strategy and then, only if it yields nothing, the API strategy; any other
exception fails the item with no fallback. -/
def download (env : Env) (e : Entry) : DlResult :=
  if env.alreadyPresent then
    { success := true, trace := [], msgs := [StatusMsg.alreadyIn] }
  else
    match env.wget (defaultUrl e) with
    | Except.ok outfile => finishDownload env outfile [Trace.wget (defaultUrl e)] []
    | Except.error ex =>
      if ex.code = some 404 then
        match env.scrapeUrl with
        | some newurl =>
          match env.wget newurl with
          | Except.ok outfile =>
              finishDownload env outfile
                [Trace.wget (defaultUrl e), Trace.scrape, Trace.wget newurl]
                [StatusMsg.noZipForBranch]
          | Except.error _ =>
              { success := false,
                trace := [Trace.wget (defaultUrl e), Trace.scrape, Trace.wget newurl],
                msgs := [StatusMsg.noZipForBranch, StatusMsg.failedDownload] }
        | none =>
          match env.apiUrl with
          | some newurl =>
            match env.wget newurl with
            | Except.ok outfile =>
                finishDownload env outfile
                  [Trace.wget (defaultUrl e), Trace.scrape, Trace.api, Trace.wget newurl]
                  [StatusMsg.noZipForBranch]
            | Except.error _ =>
                { success := false,
                  trace := [Trace.wget (defaultUrl e), Trace.scrape, Trace.api,
                    Trace.wget newurl],
                  msgs := [StatusMsg.noZipForBranch, StatusMsg.failedDownload] }
          | none =>
              { success := false,
                trace := [Trace.wget (defaultUrl e), Trace.scrape, Trace.api],
                msgs := [StatusMsg.noZipForBranch, StatusMsg.cantFindUrl] }
      else
        { success := false, trace := [Trace.wget (defaultUrl e)],
          msgs := [StatusMsg.failedDownload] }

/-- `do_download(id)` from src/downloader/downloader.py lines 191-196:
look the identifier up in the metadata store; warn and return False when it
is unknown, otherwise run `download`. -/
def do_download (repos : Nat → Option Entry) (envOf : Nat → Env) (id : Nat) :
    DlResult :=
  match repos id with
  | none => { success := false, trace := [], msgs := [StatusMsg.skipUnknown] }
  | some entry => download (envOf id) entry

/-- `get_sources` (src/downloader/downloader.py lines 180-226): every item
of the worklist is submitted to the executor (`executor.map` submits all
calls immediately), and the consumption loop folds over the outcomes in
submission order.  Returns the final accounting state and the concatenated
network trace of all submitted items. -/
def get_sources (repos : Nat → Option Entry) (envOf : Nat → Env)
    (id_list : List Nat) : SchedState × List Trace :=
  let results := id_list.map (do_download repos envOf)
  (schedRun initSched (results.map DlResult.success),
    (results.map DlResult.trace).flatten)

/-! ### Selective extraction: `unzip_archive` and `probably_text`
(src/downloader/downloader.py lines 318-361) -/

/-- One entry of `zf.infolist()`: its `filename` and the bytes that
`zf.read` returns for it. -/
structure ZipEntry where
  filename : String
  content : List Nat
deriving DecidableEq, Repr

/-- Python `s.encode('utf-8', 'ignore').decode('ascii', 'ignore')`: UTF-8
encoding then dropping every non-ASCII byte keeps exactly the ASCII
characters of the string (each non-ASCII character encodes to bytes that
are all ≥ 128). -/
def asciiFilter (s : String) : String :=
  String.mk (s.data.filter (fun c => decide (c.toNat < 128)))

/-- `probably_text(filename, content)` (lines 357-361): empty content is
text; otherwise the content is text iff the `magic.from_buffer` description
of the bytes contains the substring `"text"` (`find('text') >= 0`).  The
`magic` oracle maps byte contents to their libmagic description. -/
def probably_text (magic : List Nat → String) (filename : String)
    (content : List Nat) : Bool :=
  if content.isEmpty then true
  else decide ("text".data <:+: (magic content).data)

/-- The destination path of one archive entry (lines 334-336):
`name = component.filename.encode('utf-8','ignore').decode('ascii','ignore')`,
`dir_name = os.path.join(dest, os.path.dirname(name))`,
`full_path = os.path.join(dir_name, os.path.basename(name))`. -/
def entryDestPath (dest : String) (component : ZipEntry) : String :=
  let name := asciiFilter component.filename
  pathJoin (pathJoin dest (dirname name)) (basename name)

/-- `unzip_archive(file, dest)` (lines 318-354): on an empty entry list the
function raises (`outdir` is never bound), modelled as `none`; otherwise it
returns the extraction root — the first entry's name joined to the
archive's directory — together with the list of files written: full
content for entries classified as probable text, an empty (`os.mknod`)
placeholder for the rest; entries whose name ends in `/` are directories
and get no file. -/
def unzip_archive (magic : List Nat → String) (file : String) (dest : String)
    (entries : List ZipEntry) : Option (String × List (String × List Nat)) :=
  match entries with
  | [] => none
  | first :: _ =>
    some (pathJoin (dirname file) first.filename,
      entries.filterMap (fun component =>
        let name := asciiFilter component.filename
        if endsWithSlash name then none
        else if probably_text magic name component.content then
          some (entryDestPath dest component, component.content)
        else
          some (entryDestPath dest component, ([] : List Nat))))

/-! ### `get_archive_url_by_api` (src/downloader/downloader.py lines 390-411) -/

/-- The parts of the zipball HTTP response that `get_archive_url_by_api`
inspects: `response.status`, `response.getheaders()` and the decoded body. -/
structure ApiResponse where
  status : Nat
  headers : List (String × String)
  body : String
deriving DecidableEq, Repr

/-- `get_archive_url_by_api` given the response of the zipball request: on
302, `next(y for x, y in response.getheaders() if x == 'Location')` — the
first `Location` header's value, `None` when the generator is empty; on
200, the body decoded verbatim; any other status yields `None`. -/
def get_archive_url_by_api (resp : ApiResponse) : Option String :=
  if resp.status = 302 then
    (resp.headers.find? (fun p => p.1 == "Location")).map Prod.snd
  else if resp.status = 200 then some resp.body
  else none

/-! ### Concrete data used to instantiate the theorems -/

/-- A repository record used to instantiate the theorems. -/
def sampleEntry : Entry := ⟨7, "octo", "repo", "master"⟩

/-- An environment in which the default-branch URL answers 404 and the
scrape strategy yields an alternative URL whose download also fails. -/
def env404 : Env :=
  { alreadyPresent := false
    wget := fun _ => Except.error ⟨some 404⟩
    scrapeUrl := some "http://github.com/alt.zip"
    apiUrl := none
    unzip := fun _ => none }

/-- An environment whose destination is already populated. -/
def envPresent : Env :=
  { alreadyPresent := true
    wget := fun _ => Except.error ⟨none⟩
    scrapeUrl := none
    apiUrl := none
    unzip := fun _ => none }

/-- A magic oracle for examples: contents starting with byte 104 are
described as ASCII text, everything else as data. -/
def sampleMagic : List Nat → String :=
  fun c => if c.head? = some 104 then "ASCII text" else "data"

/-- A probable-text entry (content "hi"). -/
def textEntry : ZipEntry := ⟨"repo-1/a.txt", [104, 105]⟩

/-- A binary entry. -/
def binEntry : ZipEntry := ⟨"repo-1/b.bin", [0, 1]⟩

/-- An entry with empty content. -/
def emptyEntry : ZipEntry := ⟨"repo-1/c", []⟩

/-- A metadata store that knows no identifier. -/
def noRepos : Nat → Option Entry := fun _ => none

/-- A constant per-identifier environment. -/
def constEnv : Nat → Env := fun _ => envPresent

end Downloader

namespace Downloader

/-- **C1** (code_bug evaluation).  The claim says a success outcome resets
`failures` to 0 before the next outcome is counted.  In `get_sources` the
counter is never reset on success: after nine failures and one success the
counter still reads 9, and one further failure triggers the pause
(`sleep(300)`) even though a success intervened. -/
theorem c1_success_does_not_reset_failures :
    (processOutcomes (List.replicate 9 false ++ [true])).failures = 9
    ∧ (processOutcomes (List.replicate 9 false ++ [true, false])).sleeps = [300] := by
  constructor <;> rfl

/-- **C2** (code_bug evaluation).  The claim (and the docstring of
`_MAX_RETRIES`) says the run is abandoned after at most 3 pauses with no
intervening success.  Because the code tests `retries <= _MAX_RETRIES`
before incrementing, a run of 50 consecutive failures incurs four pauses
(sleeping 300, 600, 900, 1200 seconds) before the loop finally breaks. -/
theorem c2_four_pauses_before_stop :
    (processOutcomes (List.replicate 50 false)).sleeps = [300, 600, 900, 1200]
    ∧ (processOutcomes (List.replicate 50 false)).stopped = true := by
  constructor <;> rfl

/-- Whatever `unzip_archive` does, the network trace of the download tail
is the trace accumulated before it. -/
lemma finishDownload_trace (env : Env) (f : String) (tr : List Trace)
    (ms : List StatusMsg) : (finishDownload env f tr ms).trace = tr := by
  unfold finishDownload
  cases env.unzip f <;> rfl

/-- **C3**: when the destination is not already populated, a non-404
download error fails the item with no fallback; a successful default-branch
download invokes neither fallback strategy; and on a 404 the scrape
strategy runs first, the API strategy runs only when scraping yields no
URL, and is never invoked when scraping yields one. -/
theorem c3_fallback_ordering (env : Env) (e : Entry)
    (hp : env.alreadyPresent = false) :
    (∀ ex, env.wget (defaultUrl e) = Except.error ex → ex.code ≠ some 404 →
      download env e =
        { success := false, trace := [Trace.wget (defaultUrl e)],
          msgs := [StatusMsg.failedDownload] })
    ∧ (∀ f, env.wget (defaultUrl e) = Except.ok f →
      Trace.scrape ∉ (download env e).trace ∧ Trace.api ∉ (download env e).trace)
    ∧ (∀ ex, env.wget (defaultUrl e) = Except.error ex → ex.code = some 404 →
      ((download env e).trace.take 2 = [Trace.wget (defaultUrl e), Trace.scrape]
       ∧ (∀ u, env.scrapeUrl = some u →
           (download env e).trace
             = [Trace.wget (defaultUrl e), Trace.scrape, Trace.wget u]
           ∧ Trace.api ∉ (download env e).trace)
       ∧ (env.scrapeUrl = none →
           (download env e).trace.take 3
             = [Trace.wget (defaultUrl e), Trace.scrape, Trace.api]))) := by
  refine ⟨?_, ?_, ?_⟩
  · intro ex hw hcode
    simp [download, hp, hw, hcode]
  · intro f hw
    simp [download, hp, hw, finishDownload_trace]
  · intro ex hw hcode
    have hs : ∀ u, env.scrapeUrl = some u →
        (download env e).trace
          = [Trace.wget (defaultUrl e), Trace.scrape, Trace.wget u] := by
      intro u hu
      cases hwu : env.wget u with
      | ok f => simp [download, hp, hw, hcode, hu, hwu, finishDownload_trace]
      | error ex2 => simp [download, hp, hw, hcode, hu, hwu]
    refine ⟨?_, fun u hu => ⟨hs u hu, ?_⟩, ?_⟩
    · cases hu : env.scrapeUrl with
      | some u => rw [hs u hu]; rfl
      | none =>
        cases ha : env.apiUrl with
        | some u =>
          cases hwu : env.wget u with
          | ok f => simp [download, hp, hw, hcode, hu, ha, hwu, finishDownload_trace]
          | error ex2 => simp [download, hp, hw, hcode, hu, ha, hwu]
        | none => simp [download, hp, hw, hcode, hu, ha]
    · rw [hs u hu]
      simp
    · intro hu
      cases ha : env.apiUrl with
      | some u =>
        cases hwu : env.wget u with
        | ok f => simp [download, hp, hw, hcode, hu, ha, hwu, finishDownload_trace]
        | error ex2 => simp [download, hp, hw, hcode, hu, ha, hwu]
      | none => simp [download, hp, hw, hcode, hu, ha]

theorem c3_fallback_ordering_witness :
    env404.alreadyPresent = false
    ∧ (download env404 sampleEntry).trace
        = [Trace.wget (defaultUrl sampleEntry), Trace.scrape,
           Trace.wget "http://github.com/alt.zip"]
    ∧ Trace.api ∉ (download env404 sampleEntry).trace :=
  ⟨rfl,
    (((c3_fallback_ordering env404 sampleEntry rfl).2.2 ⟨some 404⟩ rfl rfl).2.1
      "http://github.com/alt.zip" rfl).1,
    (((c3_fallback_ordering env404 sampleEntry rfl).2.2 ⟨some 404⟩ rfl rfl).2.1
      "http://github.com/alt.zip" rfl).2⟩

/-- **C4**: an already-populated destination makes `download` report
"already in ... -- skipping" and return success with no network action at
all, and a success outcome leaves the scheduler's failure counter
unchanged (in particular it does not increment it), so a second run over
the same identifier is a pure skip. -/
theorem c4_already_present_skip (env : Env) (e : Entry) (s : SchedState)
    (hp : env.alreadyPresent = true) (hf : s.failures < MAX_FAILURES) :
    download env e = { success := true, trace := [], msgs := [StatusMsg.alreadyIn] }
    ∧ (schedStep s true).failures = s.failures := by
  constructor
  · simp [download, hp]
  · have hnot : ¬ MAX_FAILURES ≤ s.failures := Nat.not_le.mpr hf
    simp [schedStep, hnot]

theorem c4_already_present_skip_witness :
    envPresent.alreadyPresent = true
    ∧ initSched.failures < MAX_FAILURES
    ∧ (download envPresent sampleEntry
          = { success := true, trace := [], msgs := [StatusMsg.alreadyIn] }
        ∧ (schedStep initSched true).failures = initSched.failures) :=
  ⟨rfl, by decide,
    c4_already_present_skip envPresent sampleEntry initSched rfl (by decide)⟩

/-- **C5**: extraction classifies an entry by its content alone (the
`filename` argument of `probably_text` is never consulted, so the decision
is content sniffing, not extension-based); a text-classified entry is
written with its exact byte content and a binary-classified entry is
written as a zero-length placeholder at the same destination path. -/
theorem c5_text_binary_split (magic : List Nat → String) (file dest : String)
    (entries : List ZipEntry) (e : ZipEntry) (he : e ∈ entries)
    (hn : endsWithSlash (asciiFilter e.filename) = false) :
    (∀ n₁ n₂ c, probably_text magic n₁ c = probably_text magic n₂ c)
    ∧ ∃ r, unzip_archive magic file dest entries = some r
        ∧ (probably_text magic (asciiFilter e.filename) e.content = true →
            (entryDestPath dest e, e.content) ∈ r.2)
        ∧ (probably_text magic (asciiFilter e.filename) e.content = false →
            (entryDestPath dest e, ([] : List Nat)) ∈ r.2) := by
  refine ⟨fun n₁ n₂ c => rfl, ?_⟩
  cases entries with
  | nil => cases he
  | cons first rest =>
    refine ⟨_, rfl, ?_, ?_⟩ <;> intro hc <;>
      exact List.mem_filterMap.mpr ⟨e, he, by simp [hn, hc]⟩

theorem c5_text_binary_split_witness :
    textEntry ∈ [textEntry, binEntry]
    ∧ endsWithSlash (asciiFilter textEntry.filename) = false
    ∧ ((∀ n₁ n₂ c, probably_text sampleMagic n₁ c = probably_text sampleMagic n₂ c)
       ∧ ∃ r, unzip_archive sampleMagic "/tmp/x.zip" "/tmp" [textEntry, binEntry]
            = some r
          ∧ (probably_text sampleMagic (asciiFilter textEntry.filename)
                textEntry.content = true →
              (entryDestPath "/tmp" textEntry, textEntry.content) ∈ r.2)
          ∧ (probably_text sampleMagic (asciiFilter textEntry.filename)
                textEntry.content = false →
              (entryDestPath "/tmp" textEntry, ([] : List Nat)) ∈ r.2)) :=
  ⟨by decide, by decide,
    c5_text_binary_split sampleMagic "/tmp/x.zip" "/tmp" [textEntry, binEntry]
      textEntry (by decide) (by decide)⟩

/-- **C7**: `get_archive_url_by_api` returns the (first) `Location`
header's value on a 302 response, the body verbatim on a 200 response, and
not-found (`none`) on any other status. -/
theorem c7_api_status_handling (resp : ApiResponse) :
    (resp.status = 302 → ∀ k v,
      resp.headers.find? (fun p => p.1 == "Location") = some (k, v) →
      get_archive_url_by_api resp = some v)
    ∧ (resp.status = 200 → get_archive_url_by_api resp = some resp.body)
    ∧ (resp.status ≠ 302 → resp.status ≠ 200 →
      get_archive_url_by_api resp = none) := by
  refine ⟨?_, ?_, ?_⟩
  · intro h k v hf
    simp [get_archive_url_by_api, h, hf]
  · intro h
    simp [get_archive_url_by_api, h]
  · intro h1 h2
    simp [get_archive_url_by_api, h1, h2]

theorem c7_api_status_handling_witness :
    get_archive_url_by_api ⟨302, [("Location", "http://u.zip")], ""⟩
        = some "http://u.zip"
    ∧ get_archive_url_by_api ⟨200, [], "http://v.zip"⟩ = some "http://v.zip"
    ∧ get_archive_url_by_api ⟨404, [], ""⟩ = none :=
  ⟨(c7_api_status_handling _).1 rfl "Location" "http://u.zip" rfl,
   (c7_api_status_handling _).2.1 rfl,
   (c7_api_status_handling _).2.2 (by decide) (by decide)⟩

/-- **C8**: for a non-empty archive, the extraction root returned by
`unzip_archive` is the first listed entry's name joined to the archive's
containing directory, whatever the remaining entries are. -/
theorem c8_root_is_first_entry (magic : List Nat → String) (file dest : String)
    (first : ZipEntry) (rest : List ZipEntry) :
    (unzip_archive magic file dest (first :: rest)).map Prod.fst
      = some (pathJoin (dirname file) first.filename) := rfl

/-- **C9**: `probably_text` classifies empty content as text for every
filename, so an originally-empty file is written as a zero-byte content
file; a binary-classified entry is written as a zero-byte placeholder —
the two productions are identical zero-byte files at the destination. -/
theorem c9_empty_and_binary_indistinguishable (magic : List Nat → String)
    (file dest : String) (e b : ZipEntry)
    (he : e.content = []) (hne : endsWithSlash (asciiFilter e.filename) = false)
    (hb : probably_text magic (asciiFilter b.filename) b.content = false)
    (hnb : endsWithSlash (asciiFilter b.filename) = false) :
    (∀ n, probably_text magic n [] = true)
    ∧ unzip_archive magic file dest [e]
        = some (pathJoin (dirname file) e.filename, [(entryDestPath dest e, [])])
    ∧ unzip_archive magic file dest [b]
        = some (pathJoin (dirname file) b.filename, [(entryDestPath dest b, [])]) := by
  refine ⟨fun n => rfl, ?_, ?_⟩
  · simp [unzip_archive, hne, he, probably_text]
  · simp [unzip_archive, hnb, hb]

theorem c9_empty_and_binary_indistinguishable_witness :
    emptyEntry.content = []
    ∧ endsWithSlash (asciiFilter emptyEntry.filename) = false
    ∧ probably_text sampleMagic (asciiFilter binEntry.filename) binEntry.content
        = false
    ∧ endsWithSlash (asciiFilter binEntry.filename) = false
    ∧ ((∀ n, probably_text sampleMagic n [] = true)
       ∧ unzip_archive sampleMagic "/tmp/x.zip" "/tmp" [emptyEntry]
           = some (pathJoin (dirname "/tmp/x.zip") emptyEntry.filename,
               [(entryDestPath "/tmp" emptyEntry, [])])
       ∧ unzip_archive sampleMagic "/tmp/x.zip" "/tmp" [binEntry]
           = some (pathJoin (dirname "/tmp/x.zip") binEntry.filename,
               [(entryDestPath "/tmp" binEntry, [])])) :=
  ⟨rfl, by decide, by decide, by decide,
    c9_empty_and_binary_indistinguishable sampleMagic "/tmp/x.zip" "/tmp"
      emptyEntry binEntry rfl (by decide) (by decide) (by decide)⟩

/-- An all-unknown worklist produces one skip-warning failure outcome per
item and no network trace. -/
lemma map_do_download_unknown (repos : Nat → Option Entry) (envOf : Nat → Env) :
    ∀ l : List Nat, (∀ id ∈ l, repos id = none) →
      l.map (do_download repos envOf)
        = List.replicate l.length
            { success := false, trace := [], msgs := [StatusMsg.skipUnknown] } := by
  intro l
  induction l with
  | nil => intro _; rfl
  | cons a as ih =>
    intro hl
    rw [List.map_cons, List.length_cons, List.replicate_succ]
    congr 1
    · simp [do_download, hl a (List.mem_cons_self a as)]
    · exact ih (fun id hid => hl id (List.mem_cons_of_mem a hid))

/-- **C10**: an identifier absent from the metadata store yields a skip
warning and a failure outcome with no network action, so ten unknown
identifiers in a row drive the failure counter to the threshold and
trigger the circuit-breaker pause (`sleep(300)`) with an empty network
trace. -/
theorem c10_unknown_ids_trip_breaker (repos : Nat → Option Entry)
    (envOf : Nat → Env) (ids : List Nat)
    (hlen : ids.length = 10) (hunk : ∀ id ∈ ids, repos id = none) :
    (∀ id, repos id = none →
      do_download repos envOf id
        = { success := false, trace := [], msgs := [StatusMsg.skipUnknown] })
    ∧ (get_sources repos envOf ids).1.sleeps = [300]
    ∧ (get_sources repos envOf ids).2 = [] := by
  refine ⟨fun id h => by simp [do_download, h], ?_, ?_⟩
  · show (schedRun initSched
      ((ids.map (do_download repos envOf)).map DlResult.success)).sleeps = [300]
    rw [map_do_download_unknown repos envOf ids hunk, hlen]
    rfl
  · show ((ids.map (do_download repos envOf)).map DlResult.trace).flatten = []
    rw [map_do_download_unknown repos envOf ids hunk, hlen]
    rfl

/-- A decimal digit character is not a slash. -/
lemma digitChar_ne_slash (m : Nat) (h : m < 10) : digitChar m ≠ '/' := by
  interval_cases m <;> decide

/-- No character of the digit loop's output is a slash. -/
lemma toDecimalCore_digits (fuel : Nat) : ∀ n : Nat, ∀ c ∈ toDecimalCore fuel n,
    c ≠ '/' := by
  induction fuel with
  | zero => intro n c hc; cases hc
  | succ fuel ih =>
    intro n c hc
    rw [toDecimalCore] at hc
    split at hc
    · rename_i h
      rw [List.mem_singleton] at hc
      subst hc
      exact digitChar_ne_slash n h
    · rw [List.mem_append] at hc
      rcases hc with hc | hc
      · exact ih (n / 10) c hc
      · rw [List.mem_singleton] at hc
        subst hc
        exact digitChar_ne_slash (n % 10) (Nat.mod_lt n (by omega))

/-- No character of a decimal rendering is a slash. -/
lemma toDecimal_digits (n : Nat) : ∀ c ∈ toDecimal n, c ≠ '/' :=
  toDecimalCore_digits (n + 1) n

/-- A natural below `10 ^ k` renders to at most `k` decimal digits,
whatever the fuel. -/
lemma toDecimalCore_length_le (k : Nat) : ∀ fuel n : Nat, 1 ≤ k → n < 10 ^ k →
    (toDecimalCore fuel n).length ≤ k := by
  induction k with
  | zero => intro fuel n h _; omega
  | succ k ih =>
    intro fuel n _ hn
    cases fuel with
    | zero => simp [toDecimalCore]
    | succ fuel =>
      rw [toDecimalCore]
      split
      · simp
      · rename_i h10
        rw [List.length_append, List.length_singleton]
        have hk : 1 ≤ k := by
          rcases Nat.eq_zero_or_pos k with rfl | hpos
          · exfalso
            apply h10
            norm_num at hn
            exact hn
          · exact hpos
        have hdiv : n / 10 < 10 ^ k := by
          rw [Nat.div_lt_iff_lt_mul (by norm_num)]
          calc n < 10 ^ (k + 1) := hn
          _ = 10 ^ k * 10 := by ring
        have := ih fuel (n / 10) hk hdiv
        omega

/-- A natural below `10 ^ k` renders to at most `k` decimal digits. -/
lemma toDecimal_length_le (k n : Nat) (hk : 1 ≤ k) (hn : n < 10 ^ k) :
    (toDecimal n).length ≤ k :=
  toDecimalCore_length_le k (n + 1) n hk hn

/-- Below `10 ^ 8` the zero-padded rendering has exactly 8 characters. -/
lemma format08_length (n : Nat) (h : n < 10 ^ 8) : (format08 n).data.length = 8 := by
  have h1 : (toDecimal n).length ≤ 8 := toDecimal_length_le 8 n (by norm_num) h
  show (List.replicate (8 - (toDecimal n).length) '0' ++ toDecimal n).length = 8
  rw [List.length_append, List.length_replicate]
  omega

/-- No character of the zero-padded rendering is a slash. -/
lemma format08_digits (n : Nat) : ∀ c ∈ (format08 n).data, c ≠ '/' := by
  intro c hc
  have hc' : c ∈ List.replicate (8 - (toDecimal n).length) '0' ++ toDecimal n := hc
  rw [List.mem_append] at hc'
  rcases hc' with h | h
  · rw [List.mem_replicate] at h
    rw [h.2]
    decide
  · exact toDecimal_digits n c h

/-- Strings with the same character data are equal. -/
lemma string_eq_of_data (a b : String) (h : a.data = b.data) : a = b := by
  cases a
  cases b
  exact congrArg String.mk h

/-- The character data of a concatenation. -/
lemma string_data_append (a b : String) : (a ++ b).data = a.data ++ b.data := rfl

/-- The character data of `String.mk`. -/
lemma string_data_mk (l : List Char) : (String.mk l).data = l := rfl

/-- A string with nonempty data is not the empty string. -/
lemma string_ne_empty_of_data (a : String) (h : a.data ≠ []) : a ≠ "" := by
  intro he
  rw [he] at h
  exact h rfl

/-- Appending a two-character group keeps the string nonempty. -/
lemma append_pair_ne_empty (x : String) (c d : Char) :
    x ++ String.mk [c, d] ≠ "" := by
  apply string_ne_empty_of_data
  rw [string_data_append]
  simp

/-- Appending a two-character group whose last character is not a slash
yields a string that does not end in a slash. -/
lemma endsWithSlash_append_pair (x : String) (c d : Char) (hd : d ≠ '/') :
    endsWithSlash (x ++ String.mk [c, d]) = false := by
  unfold endsWithSlash
  have h : (x ++ String.mk [c, d]).data = (x.data ++ [c]) ++ [d] := by
    rw [string_data_append]
    simp
  rw [h, List.getLast?_concat]
  simp [hd]

/-- A string starting with a non-slash character does not start with a
slash. -/
lemma startsWithSlash_mk_cons (c : Char) (l : List Char) (hc : c ≠ '/') :
    startsWithSlash (String.mk (c :: l)) = false := by
  show (c == '/') = false
  simp [hc]

/-- `os.path.join` concatenates with a separator when the left part is
nonempty and slash-free at its end and the right part does not start with
a slash. -/
lemma pathJoin_of_no_slash (a b : String) (ha : a ≠ "")
    (has : endsWithSlash a = false) (hb : startsWithSlash b = false) :
    pathJoin a b = a ++ "/" ++ b := by
  unfold pathJoin
  rw [if_neg (by simp [hb]), if_neg (by simp [ha, has])]

/-- `os.path.join` concatenates without a separator when the left part is
empty or already ends in a slash. -/
lemma pathJoin_of_root (a b : String) (hb : startsWithSlash b = false)
    (h : a = "" ∨ endsWithSlash a = true) : pathJoin a b = a ++ b := by
  unfold pathJoin
  rw [if_neg (by simp [hb]), if_pos h]

/-- Shape of the four chained `os.path.join` calls on an 8-character
slash-free rendering. -/
lemma generate_path_shape_of_chars (root : String) (s : List Char)
    (hlen : s.length = 8) (hdig : ∀ c ∈ s, c ≠ '/') :
    pathJoin (pathJoin (pathJoin (pathJoin root (String.mk (s.take 2)))
        (String.mk ((s.drop 2).take 2))) (String.mk ((s.drop 4).take 2)))
      (String.mk ((s.drop 6).take 2))
    = pathJoin root (String.mk (s.take 2) ++ "/" ++ String.mk ((s.drop 2).take 2)
        ++ "/" ++ String.mk ((s.drop 4).take 2) ++ "/" ++ String.mk ((s.drop 6).take 2))
    ∧ (root ≠ "" → endsWithSlash root = false →
      pathJoin (pathJoin (pathJoin (pathJoin root (String.mk (s.take 2)))
          (String.mk ((s.drop 2).take 2))) (String.mk ((s.drop 4).take 2)))
        (String.mk ((s.drop 6).take 2))
      = root ++ "/" ++ String.mk (s.take 2) ++ "/" ++ String.mk ((s.drop 2).take 2)
        ++ "/" ++ String.mk ((s.drop 4).take 2) ++ "/" ++ String.mk ((s.drop 6).take 2))
    ∧ String.mk (s.take 2) ++ String.mk ((s.drop 2).take 2)
        ++ String.mk ((s.drop 4).take 2) ++ String.mk ((s.drop 6).take 2)
      = String.mk s := by
  rcases s with _ | ⟨a1, _ | ⟨a2, _ | ⟨a3, _ | ⟨a4, _ | ⟨a5, _ | ⟨a6, _ |
    ⟨a7, _ | ⟨a8, _ | ⟨a9, t⟩⟩⟩⟩⟩⟩⟩⟩⟩ <;>
    simp only [List.length_cons, List.length_nil] at hlen <;> try omega
  have h1 := hdig a1 (by simp)
  have h2 := hdig a2 (by simp)
  have h3 := hdig a3 (by simp)
  have h4 := hdig a4 (by simp)
  have h5 := hdig a5 (by simp)
  have h6 := hdig a6 (by simp)
  have h7 := hdig a7 (by simp)
  have h8 := hdig a8 (by simp)
  have e1 : ([a1, a2, a3, a4, a5, a6, a7, a8] : List Char).take 2 = [a1, a2] := rfl
  have e2 : (([a1, a2, a3, a4, a5, a6, a7, a8] : List Char).drop 2).take 2
      = [a3, a4] := rfl
  have e3 : (([a1, a2, a3, a4, a5, a6, a7, a8] : List Char).drop 4).take 2
      = [a5, a6] := rfl
  have e4 : (([a1, a2, a3, a4, a5, a6, a7, a8] : List Char).drop 6).take 2
      = [a7, a8] := rfl
  rw [e1, e2, e3, e4]
  have hb1 : startsWithSlash (String.mk [a1, a2]) = false :=
    startsWithSlash_mk_cons a1 [a2] h1
  have hb2 : startsWithSlash (String.mk [a3, a4]) = false :=
    startsWithSlash_mk_cons a3 [a4] h3
  have hb3 : startsWithSlash (String.mk [a5, a6]) = false :=
    startsWithSlash_mk_cons a5 [a6] h5
  have hb4 : startsWithSlash (String.mk [a7, a8]) = false :=
    startsWithSlash_mk_cons a7 [a8] h7
  have hbG : startsWithSlash (String.mk [a1, a2] ++ "/" ++ String.mk [a3, a4]
      ++ "/" ++ String.mk [a5, a6] ++ "/" ++ String.mk [a7, a8]) = false := by
    show (a1 == '/') = false
    simp [h1]
  have hcNeg : root ≠ "" → endsWithSlash root = false →
      pathJoin (pathJoin (pathJoin (pathJoin root (String.mk [a1, a2]))
          (String.mk [a3, a4])) (String.mk [a5, a6])) (String.mk [a7, a8])
      = root ++ "/" ++ String.mk [a1, a2] ++ "/" ++ String.mk [a3, a4]
        ++ "/" ++ String.mk [a5, a6] ++ "/" ++ String.mk [a7, a8] := by
    intro hne hsw
    rw [pathJoin_of_no_slash root _ hne hsw hb1]
    rw [pathJoin_of_no_slash _ _ (append_pair_ne_empty _ a1 a2)
      (endsWithSlash_append_pair _ a1 a2 h2) hb2]
    rw [pathJoin_of_no_slash _ _ (append_pair_ne_empty _ a3 a4)
      (endsWithSlash_append_pair _ a3 a4 h4) hb3]
    rw [pathJoin_of_no_slash _ _ (append_pair_ne_empty _ a5 a6)
      (endsWithSlash_append_pair _ a5 a6 h6) hb4]
  have hcPos : (root = "" ∨ endsWithSlash root = true) →
      pathJoin (pathJoin (pathJoin (pathJoin root (String.mk [a1, a2]))
          (String.mk [a3, a4])) (String.mk [a5, a6])) (String.mk [a7, a8])
      = root ++ String.mk [a1, a2] ++ "/" ++ String.mk [a3, a4]
        ++ "/" ++ String.mk [a5, a6] ++ "/" ++ String.mk [a7, a8] := by
    intro hr
    rw [pathJoin_of_root _ _ hb1 hr]
    rw [pathJoin_of_no_slash _ _ (append_pair_ne_empty _ a1 a2)
      (endsWithSlash_append_pair _ a1 a2 h2) hb2]
    rw [pathJoin_of_no_slash _ _ (append_pair_ne_empty _ a3 a4)
      (endsWithSlash_append_pair _ a3 a4 h4) hb3]
    rw [pathJoin_of_no_slash _ _ (append_pair_ne_empty _ a5 a6)
      (endsWithSlash_append_pair _ a5 a6 h6) hb4]
  refine ⟨?_, ?_, rfl⟩
  · by_cases hr : root = "" ∨ endsWithSlash root = true
    · rw [hcPos hr, pathJoin_of_root _ _ hbG hr]
      apply string_eq_of_data
      simp [string_data_append, string_data_mk,
        show ("/" : String).data = ['/'] from rfl, List.append_assoc]
    · push_neg at hr
      have hsw : endsWithSlash root = false := Bool.eq_false_iff.mpr hr.2
      rw [hcNeg hr.1 hsw, pathJoin_of_no_slash _ _ hr.1 hsw hbG]
      apply string_eq_of_data
      simp [string_data_append, string_data_mk,
        show ("/" : String).data = ['/'] from rfl, List.append_assoc]
  · intro hne hsw
    exact hcNeg hne hsw

/-- **C6**: for every identifier below `10 ^ 8`, `generate_path` renders
the identifier as a zero-padded 8-digit decimal string `AABBCCDD` and
returns the path joining `root`, `AA`, `BB`, `CC`, `DD`; for a nonempty
root with no trailing slash this is literally
`root ++ "/AA/BB/CC/DD"`, and the function is pure. -/
theorem c6_generate_path_shape (root : String) (id : Nat) (hid : id < 10 ^ 8) :
    (format08 id).data.length = 8
    ∧ generate_path root id
      = pathJoin root (String.mk ((format08 id).data.take 2) ++ "/"
          ++ String.mk (((format08 id).data.drop 2).take 2) ++ "/"
          ++ String.mk (((format08 id).data.drop 4).take 2) ++ "/"
          ++ String.mk (((format08 id).data.drop 6).take 2))
    ∧ (root ≠ "" → endsWithSlash root = false →
      generate_path root id
        = root ++ "/" ++ String.mk ((format08 id).data.take 2) ++ "/"
          ++ String.mk (((format08 id).data.drop 2).take 2) ++ "/"
          ++ String.mk (((format08 id).data.drop 4).take 2) ++ "/"
          ++ String.mk (((format08 id).data.drop 6).take 2))
    ∧ String.mk ((format08 id).data.take 2)
        ++ String.mk (((format08 id).data.drop 2).take 2)
        ++ String.mk (((format08 id).data.drop 4).take 2)
        ++ String.mk (((format08 id).data.drop 6).take 2) = format08 id
    ∧ generate_path root id = generate_path root id := by
  have hlen := format08_length id hid
  have hdig := format08_digits id
  have h := generate_path_shape_of_chars root (format08 id).data hlen hdig
  exact ⟨hlen, h.1, h.2.1, h.2.2, rfl⟩

theorem c6_generate_path_shape_witness :
    7182480 < 10 ^ 8
    ∧ generate_path "r" 7182480 = "r/07/18/24/80" :=
  ⟨by norm_num, by
    have h := (c6_generate_path_shape "r" 7182480 (by norm_num)).2.2.1
      (by decide) (by decide)
    rw [h]
    decide⟩

theorem c10_unknown_ids_trip_breaker_witness :
    (List.range 10).length = 10
    ∧ (∀ id ∈ List.range 10, noRepos id = none)
    ∧ ((∀ id, noRepos id = none →
          do_download noRepos constEnv id
            = { success := false, trace := [], msgs := [StatusMsg.skipUnknown] })
       ∧ (get_sources noRepos constEnv (List.range 10)).1.sleeps = [300]
       ∧ (get_sources noRepos constEnv (List.range 10)).2 = []) :=
  ⟨by decide, fun _ _ => rfl,
    c10_unknown_ids_trip_breaker noRepos constEnv (List.range 10) (by decide)
      (fun _ _ => rfl)⟩

end Downloader
